import Mathlib

/-!
Shallow embedding of `src/index.js` of the Finary-Revolut-Helper repository
(a Node.js script that parses a Revolut CSV transaction export and computes
per-ticker average purchase prices plus portfolio cash-flow totals),
together with proofs about the claims of the specification.

Modelling conventions:

* JavaScript numbers are `Option ℚ`: `some q` is a finite number of value
  `q`, and `none` stands for a non-finite value (JavaScript `NaN`; the
  infinities, which the program can only reach through pathological inputs
  such as the literal string "Infinity" or a division of a nonzero value by
  zero, are conflated with `NaN` in this model).  Arithmetic propagates
  `none` exactly the way JavaScript propagates `NaN`, and every comparison
  with a `none` operand is false, the way every JavaScript comparison with
  `NaN` is false.  Two arithmetic models are used on this carrier: the exact
  idealization (`jadd`, `jsub`, `jdiv`), and the IEEE-754 binary64
  refinement (`f64add`, `f64sub`, `f64div`) in which every operation result
  is rounded to 53 significand bits the way JavaScript doubles are — the
  refinement is what makes the order-sensitivity of floating-point sums
  expressible.
* JavaScript `undefined` string values (absent object properties) are
  modelled as `none : Option String`.
* A JavaScript plain object used as a dictionary (`tickerStats`, the final
  `result`) is modelled as an association list in insertion order, which is
  exactly the enumeration order of string-keyed JavaScript objects.
* Exceptions (the `TypeError` thrown by `row['Price per share'].replace`
  when that column is absent) are modelled with `Except String`.
-/

namespace FinaryRevolut

/-! ## JavaScript numbers (exact model) -/

/-- A JavaScript number: `some q` is the finite value `q`, `none` is
non-finite (`NaN`, with the infinities conflated into it, see the header). -/
abbrev JNum := Option ℚ

/-- JavaScript `+` on numbers: any non-finite operand poisons the result. -/
def jadd : JNum → JNum → JNum
  | some a, some b => some (a + b)
  | _, _ => none

/-- JavaScript `-` on numbers. -/
def jsub : JNum → JNum → JNum
  | some a, some b => some (a - b)
  | _, _ => none

/-- JavaScript `Math.abs`. -/
def jabs : JNum → JNum
  | some a => some |a|
  | none => none

/-- JavaScript `/` on numbers.  `0 / 0` is `NaN` (`none`); a nonzero value
divided by zero is an infinity, conflated with `none` in this model. -/
def jdiv : JNum → JNum → JNum
  | some a, some b => if b = 0 then none else some (a / b)
  | _, _ => none

/-- JavaScript `<` on numbers: false whenever an operand is non-finite
(exactly how every comparison with `NaN` is false). -/
def jlt : JNum → JNum → Bool
  | some a, some b => a < b
  | _, _ => false

/-- JavaScript `<=` on numbers, false on non-finite operands. -/
def jle : JNum → JNum → Bool
  | some a, some b => a ≤ b
  | _, _ => false

/-- Sum of a list of JavaScript numbers, accumulated left to right starting
from `0` — the shape every `x += e` accumulation in the script has. -/
def jsum (l : List JNum) : JNum := l.foldl jadd (some 0)

/-! ## Transaction records

The parser (`parseCSV` in `src/index.js`) pushes plain objects with fields
`ticker`, `type`, `quantity`, `pricePerShare`, `totalAmount`; fields that a
given transaction kind does not set are `undefined` (here: `none` for the
ticker, non-finite `none : JNum` for numbers, since every arithmetic use of
`undefined` in JavaScript behaves like `NaN`). -/

structure Transaction where
  ticker : Option String
  type : String
  quantity : JNum
  pricePerShare : JNum
  totalAmount : JNum
  deriving DecidableEq, Repr

deriving instance DecidableEq for Except

/-! ## The aggregator (`calculateAveragePrices`, src/index.js lines 88-149) -/

/-- The per-ticker running totals (`tickerStats[ticker]` in the script). -/
structure TickerStat where
  boughtQuantity : JNum
  soldQuantity : JNum
  totalBoughtAmount : JNum
  deriving DecidableEq, Repr

/-- The lazily-initialized zero entry of `tickerStats`. -/
def zeroStat : TickerStat :=
  { boughtQuantity := some 0, soldQuantity := some 0, totalBoughtAmount := some 0 }

/-- The string a JavaScript computed member access `tickerStats[ticker]`
coerces its key to: `undefined` becomes the string `"undefined"`. -/
def statKey : Option String → String
  | some t => t
  | none => "undefined"

/-- First-match lookup in an association list (JavaScript property read on an
object built by insertion; keys are unique in the script, where entries are
only ever inserted after a failed membership test). -/
def alookup {α : Type} : List (String × α) → String → Option α
  | [], _ => none
  | p :: rest, t => if p.1 = t then some p.2 else alookup rest t

/-- `if (!tickerStats[ticker]) tickerStats[ticker] = {0, 0, 0}` — append a
zero entry unless the key is already present. -/
def ensureStat (l : List (String × TickerStat)) (t : String) : List (String × TickerStat) :=
  match alookup l t with
  | some _ => l
  | none => l ++ [(t, zeroStat)]

/-- In-place update of the entry with key `t` (property write on the
JavaScript object). -/
def modifyStat (l : List (String × TickerStat)) (t : String) (f : TickerStat → TickerStat) :
    List (String × TickerStat) :=
  l.map fun p => if p.1 = t then (p.1, f p.2) else p

/-- The mutable state of the aggregation loop of `calculateAveragePrices`. -/
structure AggState where
  tickerStats : List (String × TickerStat)
  totalInjected : JNum
  totalSold : JNum
  totalDividends : JNum
  totalFees : JNum
  deriving DecidableEq, Repr

def initialState : AggState :=
  { tickerStats := [], totalInjected := some 0, totalSold := some 0,
    totalDividends := some 0, totalFees := some 0 }

/-- One iteration of the `for (const transaction of transactions)` loop of
`calculateAveragePrices` (src/index.js lines 95-131), branch for branch. -/
def processTransaction (s : AggState) (tx : Transaction) : AggState :=
  -- Handle Cash Top-ups (BUY EUR)
  if tx.ticker = some "EUR" ∧ tx.type = "BUY" then
    { s with totalInjected := jadd s.totalInjected tx.totalAmount }
  else if tx.type = "DIVIDEND" then
    { s with totalDividends := jadd s.totalDividends tx.totalAmount }
  else if tx.type = "FEE" then
    { s with totalFees := jadd s.totalFees (jabs tx.totalAmount) }
  -- below, `statKey tx.ticker` is the script's `ticker` used as an object
  -- key, and `ensureStat` is its lazy `if (!tickerStats[ticker])` init
  else if tx.type = "BUY" then
    { s with tickerStats :=
        modifyStat (ensureStat s.tickerStats (statKey tx.ticker)) (statKey tx.ticker) fun st =>
          { st with boughtQuantity := jadd st.boughtQuantity tx.quantity,
                    totalBoughtAmount := jadd st.totalBoughtAmount tx.totalAmount } }
  else if tx.type = "SELL" then
    { s with
      totalSold := jadd s.totalSold tx.totalAmount,
      tickerStats :=
        modifyStat (ensureStat s.tickerStats (statKey tx.ticker)) (statKey tx.ticker) fun st =>
          { st with soldQuantity := jadd st.soldQuantity tx.quantity } }
  else
    { s with tickerStats := ensureStat s.tickerStats (statKey tx.ticker) }

/-- One entry of the `result` object (`averagePrice`, `totalQuantity`; the
specification calls the latter `remainingQuantity`). -/
structure Position where
  averagePrice : JNum
  totalQuantity : JNum
  deriving DecidableEq, Repr

/-- The value `calculateAveragePrices` returns. -/
structure AggResult where
  positions : List (String × Position)
  totalInjected : JNum
  totalSold : JNum
  totalDividends : JNum
  totalFees : JNum
  deriving DecidableEq, Repr

/-- `calculateAveragePrices` (src/index.js lines 88-149): fold the
transaction list through the loop body, then keep every ticker whose
remaining quantity is `> 0`, with `averagePrice = totalBoughtAmount /
boughtQuantity`. -/
def calculateAveragePrices (transactions : List Transaction) : AggResult :=
  let s := transactions.foldl processTransaction initialState
  { positions := s.tickerStats.filterMap fun p =>
      let currentQuantity := jsub p.2.boughtQuantity p.2.soldQuantity
      -- Only include tickers with remaining positions
      if jlt (some 0) currentQuantity then
        some (p.1, { averagePrice := jdiv p.2.totalBoughtAmount p.2.boughtQuantity,
                     totalQuantity := currentQuantity })
      else none,
    totalInjected := s.totalInjected, totalSold := s.totalSold,
    totalDividends := s.totalDividends, totalFees := s.totalFees }

/-! ## The IEEE-754 binary64 refinement of the aggregator

JavaScript computes in IEEE-754 binary64: the result of every `+`, `-`, `/`
is the exact result rounded to 53 significand bits, round to nearest with
ties to even.  `roundDouble` models that rounding exactly for the normal
range (the exponent is unbounded, so overflow to infinity and subnormal
underflow — reachable only with astronomically large or small inputs — are
not modelled).  `processTransactionF`/`calculateAveragePricesF` are the
aggregation loop verbatim over the rounded operations; comparisons and
`Math.abs` are exact on doubles and need no refinement.  Binary64 addition
is not associative, so the rounded accumulations are order-sensitive. -/

/-- Scale a positive rational by powers of two until it lies in
`[2^52, 2^53)`; the result `(s, e)` satisfies `s * 2^e =` the input.  The
fuel only bounds the loop (4400 exceeds every exponent a finite double can
have). -/
def normalizeMantissa : ℕ → ℚ → ℤ → ℚ × ℤ
  | 0, q, e => (q, e)
  | fuel + 1, q, e =>
    if q < 4503599627370496 then normalizeMantissa fuel (2 * q) (e - 1)
    else if 9007199254740992 ≤ q then normalizeMantissa fuel (q / 2) (e + 1)
    else (q, e)

/-- Round a rational to an integer, round half to even. -/
def roundHalfEven (s : ℚ) : ℤ :=
  if s - ⌊s⌋ < 1 / 2 then ⌊s⌋
  else if 1 / 2 < s - ⌊s⌋ then ⌊s⌋ + 1
  else if ⌊s⌋ % 2 = 0 then ⌊s⌋ else ⌊s⌋ + 1

/-- The IEEE-754 binary64 value nearest to an exact rational (round to
nearest, ties to even, 53 significand bits, unbounded exponent — see the
section header). -/
def roundDouble (q : ℚ) : ℚ :=
  if q = 0 then 0
  else if q < 0 then
    -((roundHalfEven (normalizeMantissa 4400 (-q) 0).1 : ℚ) *
       (2 : ℚ) ^ (normalizeMantissa 4400 (-q) 0).2)
  else
    ((roundHalfEven (normalizeMantissa 4400 q 0).1 : ℚ) *
      (2 : ℚ) ^ (normalizeMantissa 4400 q 0).2)

/-- binary64 `+`: the exact sum, correctly rounded. -/
def f64add : JNum → JNum → JNum
  | some a, some b => some (roundDouble (a + b))
  | _, _ => none

/-- binary64 `-`. -/
def f64sub : JNum → JNum → JNum
  | some a, some b => some (roundDouble (a - b))
  | _, _ => none

/-- binary64 `/` (`0 / 0` is `NaN`, a nonzero value over zero is an
infinity, conflated with `none` as everywhere in this model). -/
def f64div : JNum → JNum → JNum
  | some a, some b => if b = 0 then none else some (roundDouble (a / b))
  | _, _ => none

/-- The loop body of `calculateAveragePrices` over binary64 arithmetic —
textually `processTransaction` with each `+=` rounded (`Math.abs` is exact
on doubles). -/
def processTransactionF (s : AggState) (tx : Transaction) : AggState :=
  -- Handle Cash Top-ups (BUY EUR)
  if tx.ticker = some "EUR" ∧ tx.type = "BUY" then
    { s with totalInjected := f64add s.totalInjected tx.totalAmount }
  else if tx.type = "DIVIDEND" then
    { s with totalDividends := f64add s.totalDividends tx.totalAmount }
  else if tx.type = "FEE" then
    { s with totalFees := f64add s.totalFees (jabs tx.totalAmount) }
  else if tx.type = "BUY" then
    { s with tickerStats :=
        modifyStat (ensureStat s.tickerStats (statKey tx.ticker)) (statKey tx.ticker) fun st =>
          { st with boughtQuantity := f64add st.boughtQuantity tx.quantity,
                    totalBoughtAmount := f64add st.totalBoughtAmount tx.totalAmount } }
  else if tx.type = "SELL" then
    { s with
      totalSold := f64add s.totalSold tx.totalAmount,
      tickerStats :=
        modifyStat (ensureStat s.tickerStats (statKey tx.ticker)) (statKey tx.ticker) fun st =>
          { st with soldQuantity := f64add st.soldQuantity tx.quantity } }
  else
    { s with tickerStats := ensureStat s.tickerStats (statKey tx.ticker) }

/-- `calculateAveragePrices` over binary64 arithmetic (comparisons on
doubles are exact, so the `> 0` filter needs no refinement). -/
def calculateAveragePricesF (transactions : List Transaction) : AggResult :=
  let s := transactions.foldl processTransactionF initialState
  { positions := s.tickerStats.filterMap fun p =>
      let currentQuantity := f64sub p.2.boughtQuantity p.2.soldQuantity
      -- Only include tickers with remaining positions
      if jlt (some 0) currentQuantity then
        some (p.1, { averagePrice := f64div p.2.totalBoughtAmount p.2.boughtQuantity,
                     totalQuantity := currentQuantity })
      else none,
    totalInjected := s.totalInjected, totalSold := s.totalSold,
    totalDividends := s.totalDividends, totalFees := s.totalFees }

/-! ## The record extractor (`parseCSV`, src/index.js lines 26-86)

String manipulation is modelled on `List Char`, with each primitive mirroring
the JavaScript string method the script uses (`split`, `trim`, `includes`,
single-occurrence `replace`, `parseFloat`). -/

/-- The whitespace characters relevant to JavaScript `trim` / `parseFloat`
(the full JavaScript set also has exotic Unicode spaces, irrelevant here). -/
def isJsWhitespace (c : Char) : Bool :=
  c = ' ' || c = '\t' || c = '\n' || c = '\r'

/-- JavaScript `String.prototype.trim`. -/
def jsTrim (cs : List Char) : List Char :=
  ((cs.dropWhile isJsWhitespace).reverse.dropWhile isJsWhitespace).reverse

/-- JavaScript `String.prototype.split` with a single-character separator:
always returns at least one (possibly empty) piece. -/
def splitOnChar (sep : Char) : List Char → List (List Char)
  | [] => [[]]
  | c :: rest =>
    let r := splitOnChar sep rest
    if c = sep then [] :: r
    else
      match r with
      | [] => [[c]]
      | h :: t => (c :: h) :: t

/-- Whether `pat` occurs at the start of `cs`. -/
def beginsWith : List Char → List Char → Bool
  | [], _ => true
  | _ :: _, [] => false
  | p :: ps, c :: cs => p == c && beginsWith ps cs

/-- JavaScript `String.prototype.includes` (substring occurrence). -/
def hasSubstr (cs pat : List Char) : Bool :=
  beginsWith pat cs ||
    match cs with
    | [] => false
    | _ :: rest => hasSubstr rest pat

/-- JavaScript `String.prototype.replace(pat, '')` with a string pattern:
removes the first occurrence of `pat` only. -/
def removeFirst (cs pat : List Char) : List Char :=
  if beginsWith pat cs then cs.drop pat.length
  else
    match cs with
    | [] => []
    | c :: rest => c :: removeFirst rest pat

/-- `.replace('€', '').replace('EUR ', '')` — the monetary-prefix stripping
the script applies before `parseFloat`. -/
def stripCurrency (s : String) : String :=
  String.mk (removeFirst (removeFirst s.data ['€']) ['E', 'U', 'R', ' '])

/-- Decimal value of a digit run. -/
def digitsToNat (ds : List Char) : ℕ :=
  ds.foldl (fun n c => 10 * n + (c.toNat - 48)) 0

/-- The optional exponent of a JavaScript decimal literal: sign followed by
digits; without digits the exponent contributes nothing (`parseFloat`
takes the longest valid literal prefix). -/
def expPart : List Char → ℤ
  | '-' :: ds => -(digitsToNat (ds.takeWhile Char.isDigit) : ℤ)
  | '+' :: ds => (digitsToNat (ds.takeWhile Char.isDigit) : ℤ)
  | ds => (digitsToNat (ds.takeWhile Char.isDigit) : ℤ)

/-- JavaScript `parseFloat`: skip leading whitespace, optional sign, longest
decimal-literal prefix (`digits [. digits] [e|E [sign] digits]`), `NaN`
(`none`) when no digit is found.  (The literal "Infinity", which `parseFloat`
maps to the infinite value, is subsumed into `none` like every other
non-finite value of this model.) -/
def jsParseFloat (s : String) : JNum :=
  let cs := s.data.dropWhile isJsWhitespace
  let sign : ℚ := match cs with
    | '-' :: _ => -1
    | _ => 1
  let cs1 : List Char := match cs with
    | '-' :: rest => rest
    | '+' :: rest => rest
    | _ => cs
  let intDigits := cs1.takeWhile Char.isDigit
  let rest1 := cs1.dropWhile Char.isDigit
  let fracDigits : List Char := match rest1 with
    | '.' :: r => r.takeWhile Char.isDigit
    | _ => []
  let rest2 : List Char := match rest1 with
    | '.' :: r => r.dropWhile Char.isDigit
    | _ => rest1
  if intDigits.isEmpty && fracDigits.isEmpty then none
  else
    let mantissa : ℚ :=
      (digitsToNat intDigits : ℚ) + (digitsToNat fracDigits : ℚ) / (10 : ℚ) ^ fracDigits.length
    let exponent : ℤ := match rest2 with
      | 'e' :: r => expPart r
      | 'E' :: r => expPart r
      | _ => 0
    some (sign * mantissa * (10 : ℚ) ^ exponent)

/-- The cells of one data line (`lines[lineIndex].split(',')`). -/
def rowValues (line : String) : List String :=
  (splitOnChar ',' line.data).map String.mk

/-- `row[header[columnIndex]] = values[columnIndex]` for every column, then a
property read: the last assignment to a name wins, and a short line leaves
the property `undefined` (`none`). -/
def rowGet (header values : List String) (name : String) : Option String :=
  header.enum.foldl
    (fun acc p => if p.2 = name then values.get? p.1 else acc) none

/-- JavaScript `v || dflt` on an optional string: `undefined` and the empty
string are falsy. -/
def jsOr (v : Option String) (dflt : String) : String :=
  match v with
  | some s => if s = "" then dflt else s
  | none => dflt

/-- JavaScript `v || null` on an optional string. -/
def jsOrNull (v : Option String) : Option String :=
  match v with
  | some s => if s = "" then none else some s
  | none => none

/-- JavaScript truthiness of an optional string. -/
def truthy (v : Option String) : Bool :=
  match v with
  | some s => s ≠ ""
  | none => false

/-- `const type = row.Type || ''`. -/
def rowType (header values : List String) : String :=
  jsOr (rowGet header values "Type") ""

/-- `const totalAmount = parseFloat((row['Total Amount'] || '0')
.replace('€', '').replace('EUR ', ''))`. -/
def rowTotalAmount (header values : List String) : JNum :=
  jsParseFloat (stripCurrency (jsOr (rowGet header values "Total Amount") "0"))

/-- The record synthesized for a `CASH TOP-UP` row. -/
def cashTopUpTx (totalAmount : JNum) : Transaction :=
  { ticker := some "EUR", type := "BUY", quantity := totalAmount,
    pricePerShare := some 1, totalAmount := totalAmount }

/-- The records the dividend, fee and cash-top-up branches of the line loop
push, in push order (src/index.js lines 57-84). -/
def laterPushes (header : List String) (line : String) : List Transaction :=
  -- Track dividends
  (if rowType header (rowValues line) = "DIVIDEND" then
    [{ ticker := jsOrNull (rowGet header (rowValues line) "Ticker"), type := "DIVIDEND",
       quantity := none, pricePerShare := none,
       totalAmount := rowTotalAmount header (rowValues line) }]
   else []) ++
  -- Track robo management fees
  (if rowType header (rowValues line) = "ROBO MANAGEMENT FEE" then
    [{ ticker := none, type := "FEE", quantity := none, pricePerShare := none,
       totalAmount := rowTotalAmount header (rowValues line) }]
   else []) ++
  -- Track cash top-ups
  (if rowType header (rowValues line) = "CASH TOP-UP" then
    [cashTopUpTx (rowTotalAmount header (rowValues line))]
   else [])

/-- The records one data line contributes, in push order (src/index.js lines
34-84).  The only statement of the loop body that can throw is
`row['Price per share'].replace(...)` when that column is `undefined`
(`parseFloat` itself never throws, it yields `NaN`); the throw happens inside
the BUY/SELL branch, before the remaining branches run. -/
def parseLine (header : List String) (line : String) : Except String (List Transaction) :=
  -- Keep BUY and SELL transactions with a ticker
  if truthy (rowGet header (rowValues line) "Ticker") = true ∧
      (hasSubstr (rowType header (rowValues line)).data "BUY".data = true ∨
       hasSubstr (rowType header (rowValues line)).data "SELL".data = true) then
    match rowGet header (rowValues line) "Price per share" with
    | none => Except.error "TypeError: Cannot read properties of undefined (reading replace)"
    | some pps =>
      Except.ok
        ({ ticker := rowGet header (rowValues line) "Ticker",
           type := if hasSubstr (rowType header (rowValues line)).data "BUY".data then "BUY"
                   else "SELL",
           quantity := (rowGet header (rowValues line) "Quantity").bind jsParseFloat,
           pricePerShare := jsParseFloat (stripCurrency pps),
           totalAmount := rowTotalAmount header (rowValues line) } :: laterPushes header line)
  else
    Except.ok (laterPushes header line)

/-- The data-line loop of `parseCSV`, accumulating pushed records in order;
a throw aborts the whole run. -/
def parseLines (header : List String) : List String → Except String (List Transaction)
  | [] => Except.ok []
  | line :: rest => do
    let txs ← parseLine header line
    let more ← parseLines header rest
    Except.ok (txs ++ more)

/-- `parseCSV` (src/index.js lines 26-86) on the raw file content:
`content.trim().split('\n')`, header from the first line, then the data
lines. -/
def parseCSV (content : String) : Except String (List Transaction) :=
  let lines := (splitOnChar '\n' (jsTrim content.data)).map String.mk
  let header := (splitOnChar ',' (lines.headD "").data).map String.mk
  parseLines header (lines.drop 1)

/-! ## The post-aggregation step of `main` (src/index.js lines 171-210) -/

/-- `Object.keys(positions).filter(ticker => !tickerToIsin[ticker])` —
tickers of the computed positions whose mapping value is falsy (absent, or
present but empty). -/
def missingTickers (positions : List (String × Position))
    (tickerToIsin : List (String × String)) : List String :=
  (positions.map Prod.fst).filter fun t => !truthy (alookup tickerToIsin t)

/-- What `main` does after aggregating: either print the missing-mapping
list and exit with status 1 (no report), or print the report. -/
inductive MainOutcome where
  | exitWithMissing (exitCode : ℕ) (missing : List String)
  | printReport (positions : List (String × Position)) (netContributions : JNum)
  deriving DecidableEq, Repr

/-- src/index.js lines 177-210: the mapping check, then the report with
`netContributions = totalInjected - totalSold`. -/
def reportOrExit (r : AggResult) (tickerToIsin : List (String × String)) : MainOutcome :=
  if missingTickers r.positions tickerToIsin ≠ [] then
    MainOutcome.exitWithMissing 1 (missingTickers r.positions tickerToIsin)
  else MainOutcome.printReport r.positions (jsub r.totalInjected r.totalSold)

/-! ## Specification-side per-ticker sums

The reference values the claims compare the aggregator against: cumulative
sums over the records that the aggregation loop folds into a given ticker's
stats.  `isStatTx` mirrors the loop's branch structure: a record reaches the
`tickerStats` code only when it is not a cash top-up (`BUY` of the `EUR`
pseudo-asset) and not a dividend or fee. -/

/-- The records that reach the `tickerStats` branches of the loop. -/
def isStatTx (tx : Transaction) : Bool :=
  !(tx.ticker == some "EUR" && tx.type == "BUY") &&
    tx.type != "DIVIDEND" && tx.type != "FEE"

/-- A record folded into ticker `t`'s stats as a buy. -/
def isBuyFor (t : String) (tx : Transaction) : Bool :=
  isStatTx tx && statKey tx.ticker == t && tx.type == "BUY"

/-- A record folded into ticker `t`'s stats as a sell. -/
def isSellFor (t : String) (tx : Transaction) : Bool :=
  isStatTx tx && statKey tx.ticker == t && tx.type == "SELL"

/-- A record that creates or touches ticker `t`'s stats entry. -/
def isTouchFor (t : String) (tx : Transaction) : Bool :=
  isStatTx tx && statKey tx.ticker == t

/-- Cumulative bought quantity of ticker `t`: sum of `quantity` over its buy
records. -/
def boughtQuantityOf (txs : List Transaction) (t : String) : JNum :=
  jsum ((txs.filter (isBuyFor t)).map Transaction.quantity)

/-- Cumulative bought amount of ticker `t`: sum of `totalAmount` over its buy
records. -/
def totalBoughtAmountOf (txs : List Transaction) (t : String) : JNum :=
  jsum ((txs.filter (isBuyFor t)).map Transaction.totalAmount)

/-- Cumulative sold quantity of ticker `t`: sum of `quantity` over its sell
records. -/
def soldQuantityOf (txs : List Transaction) (t : String) : JNum :=
  jsum ((txs.filter (isSellFor t)).map Transaction.quantity)

/-- The per-ticker position the specification predicts: present exactly when
some record touched the ticker's stats and the remaining quantity is
positive. -/
def posSpec (txs : List Transaction) (t : String) : Option Position :=
  if txs.filter (isTouchFor t) = [] then none
  else if jlt (some 0) (jsub (boughtQuantityOf txs t) (soldQuantityOf txs t)) then
    some { averagePrice := jdiv (totalBoughtAmountOf txs t) (boughtQuantityOf txs t),
           totalQuantity := jsub (boughtQuantityOf txs t) (soldQuantityOf txs t) }
  else none

/-! ## Auxiliary record classifiers used by the cash-flow totals -/

/-- A cash top-up as the aggregator recognizes it (`BUY` of `EUR`). -/
def isTopUpTx (tx : Transaction) : Bool :=
  tx.ticker == some "EUR" && tx.type == "BUY"

/-- A sell record (they always reach the sell branch: a `SELL` is never a
cash top-up). -/
def isSellTx (tx : Transaction) : Bool := tx.type == "SELL"

def isDividendTx (tx : Transaction) : Bool := tx.type == "DIVIDEND"

def isFeeTx (tx : Transaction) : Bool := tx.type == "FEE"

/-! ## Algebra of the number model -/

theorem jadd_right_comm (a b c : JNum) : jadd (jadd a b) c = jadd (jadd a c) b := by
  cases a <;> cases b <;> cases c <;> simp [jadd, add_right_comm]

theorem foldl_jadd_perm {l₁ l₂ : List JNum} (h : l₁.Perm l₂) :
    ∀ b, l₁.foldl jadd b = l₂.foldl jadd b := by
  induction h with
  | nil => intro b; rfl
  | cons x _ ih => intro b; simp only [List.foldl_cons]; exact ih _
  | swap x y l => intro b; simp only [List.foldl_cons, jadd_right_comm]
  | trans _ _ ih₁ ih₂ => intro b; rw [ih₁, ih₂]

theorem jle_zero_iff (y : JNum) : jle (some 0) y = true ↔ ∃ a : ℚ, y = some a ∧ 0 ≤ a := by
  cases y <;> simp [jle]

theorem jle_zero_foldl (l : List JNum) (b : JNum) (hb : jle (some 0) b = true)
    (hl : ∀ x ∈ l, jle (some 0) x = true) : jle (some 0) (l.foldl jadd b) = true := by
  induction l generalizing b with
  | nil => exact hb
  | cons x rest ih =>
    apply ih
    · obtain ⟨a, ha, ha0⟩ := (jle_zero_iff b).1 hb
      obtain ⟨c, hc, hc0⟩ := (jle_zero_iff x).1 (hl x (by simp))
      subst ha hc
      exact (jle_zero_iff _).2 ⟨a + c, rfl, by positivity⟩
    · intro y hy
      exact hl y (by simp [hy])

/-! ## Association-list lemmas -/

theorem alookup_append {α : Type} (l₁ l₂ : List (String × α)) (t : String) :
    alookup (l₁ ++ l₂) t =
      match alookup l₁ t with
      | some v => some v
      | none => alookup l₂ t := by
  induction l₁ with
  | nil => simp [alookup]
  | cons p rest ih => by_cases h : p.1 = t <;> simp [alookup, h, ih]

theorem alookup_eq_none {α : Type} (l : List (String × α)) (t : String) :
    alookup l t = none ↔ t ∉ l.map Prod.fst := by
  induction l with
  | nil => simp [alookup]
  | cons p rest ih =>
    by_cases h : p.1 = t <;> simp [alookup, h, ih, eq_comm (a := t)]

theorem mem_iff_alookup {α : Type} (l : List (String × α))
    (hnd : (l.map Prod.fst).Nodup) (k : String) (v : α) :
    (k, v) ∈ l ↔ alookup l k = some v := by
  induction l with
  | nil => simp [alookup]
  | cons p rest ih =>
    rw [List.map_cons, List.nodup_cons] at hnd
    obtain ⟨p1, p2⟩ := p
    by_cases h : p1 = k
    · subst h
      have hk : (p1, v) ∉ rest := fun hmem => hnd.1 (List.mem_map.mpr ⟨(p1, v), hmem, rfl⟩)
      simp [alookup, hk, eq_comm]
    · simp [alookup, h, ih hnd.2, Ne.symm h]

theorem alookup_ensureStat (l : List (String × TickerStat)) (k t : String) :
    alookup (ensureStat l k) t =
      if t = k then some ((alookup l k).getD zeroStat) else alookup l t := by
  unfold ensureStat
  cases h : alookup l k with
  | some v =>
    by_cases ht : t = k
    · subst ht; simp [h]
    · simp [ht]
  | none =>
    rw [alookup_append]
    by_cases ht : t = k
    · subst ht; simp [h, alookup]
    · cases hl : alookup l t <;> simp [ht, alookup, Ne.symm ht, hl]

theorem alookup_modifyStat (l : List (String × TickerStat)) (k : String)
    (f : TickerStat → TickerStat) (t : String) :
    alookup (modifyStat l k f) t =
      if t = k then (alookup l k).map f else alookup l t := by
  induction l with
  | nil => simp [modifyStat, alookup]
  | cons p rest ih =>
    simp only [modifyStat, List.map_cons] at ih ⊢
    by_cases h1 : p.1 = k <;> by_cases h2 : p.1 = t
    · have hk : t = k := h2.symm.trans h1
      subst hk
      simp [alookup, h1, h2]
    · have hne : ¬ t = k := fun hc => h2 (h1.trans hc.symm)
      rw [if_pos h1]
      simp [alookup, h2, ih, hne]
    · have hne : ¬ t = k := fun hc => h1 (h2.trans hc)
      rw [if_neg h1]
      simp [alookup, h2, hne]
    · rw [if_neg h1]
      by_cases ht : t = k
      · subst ht; simp [alookup, h1, h2, ih]
      · simp [alookup, h1, h2, ih, ht]

theorem keys_modifyStat (l : List (String × TickerStat)) (k : String)
    (f : TickerStat → TickerStat) :
    (modifyStat l k f).map Prod.fst = l.map Prod.fst := by
  induction l with
  | nil => rfl
  | cons p rest ih =>
    simp only [modifyStat, List.map_cons] at ih ⊢
    by_cases h : p.1 = k <;> simp [h, ih]

theorem keys_ensureStat (l : List (String × TickerStat)) (k : String) :
    (ensureStat l k).map Prod.fst =
      if alookup l k = none then l.map Prod.fst ++ [k] else l.map Prod.fst := by
  unfold ensureStat
  cases h : alookup l k <;> simp [h]

/-! ## Step lemmas: what one loop iteration does to the state -/

/-- The stats entry of ticker `t` (the lazily-initialized zero entry when
absent). -/
def getStat (s : AggState) (t : String) : TickerStat :=
  (alookup s.tickerStats t).getD zeroStat

theorem getStat_process (s : AggState) (tx : Transaction) (t : String) :
    getStat (processTransaction s tx) t =
      { boughtQuantity :=
          if isBuyFor t tx then jadd (getStat s t).boughtQuantity tx.quantity
          else (getStat s t).boughtQuantity,
        soldQuantity :=
          if isSellFor t tx then jadd (getStat s t).soldQuantity tx.quantity
          else (getStat s t).soldQuantity,
        totalBoughtAmount :=
          if isBuyFor t tx then jadd (getStat s t).totalBoughtAmount tx.totalAmount
          else (getStat s t).totalBoughtAmount } := by
  by_cases h1 : tx.ticker = some "EUR" ∧ tx.type = "BUY"
  · have hb : isBuyFor t tx = false := by simp [isBuyFor, isStatTx, h1.1, h1.2]
    have hs : isSellFor t tx = false := by simp [isSellFor, isStatTx, h1.1, h1.2]
    unfold processTransaction
    rw [if_pos h1]
    simp [getStat, hb, hs]
  · by_cases h2 : tx.type = "DIVIDEND"
    · have hb : isBuyFor t tx = false := by simp [isBuyFor, h2]
      have hs : isSellFor t tx = false := by simp [isSellFor, h2]
      unfold processTransaction
      rw [if_neg h1, if_pos h2]
      simp [getStat, hb, hs]
    · by_cases h3 : tx.type = "FEE"
      · have hb : isBuyFor t tx = false := by simp [isBuyFor, h3]
        have hs : isSellFor t tx = false := by simp [isSellFor, h3]
        unfold processTransaction
        rw [if_neg h1, if_neg h2, if_pos h3]
        simp [getStat, hb, hs]
      · have hst : isStatTx tx = true := by
          simp [isStatTx, h2, h3]
          exact not_and_or.mp h1
        have hne : ∀ (hnt : ¬ t = statKey tx.ticker), (statKey tx.ticker == t) = false := by
          intro hnt
          simp only [beq_eq_false_iff_ne, ne_eq]
          exact fun hc => hnt hc.symm
        by_cases h4 : tx.type = "BUY"
        · have hs : ∀ u, isSellFor u tx = false := fun u => by simp [isSellFor, h4]
          unfold processTransaction
          rw [if_neg h1, if_neg h2, if_neg h3, if_pos h4]
          simp only [getStat]
          rw [alookup_modifyStat]
          by_cases ht : t = statKey tx.ticker
          · have hb : isBuyFor (statKey tx.ticker) tx = true := by
              simp [isBuyFor, hst, h4]
            rw [if_pos ht, alookup_ensureStat, if_pos rfl]
            simp [hb, hs, ht]
          · have hb : isBuyFor t tx = false := by simp [isBuyFor, hne ht]
            rw [if_neg ht, alookup_ensureStat, if_neg ht]
            simp [hb, hs]
        · by_cases h5 : tx.type = "SELL"
          · have hb : ∀ u, isBuyFor u tx = false := fun u => by simp [isBuyFor, h4]
            unfold processTransaction
            rw [if_neg h1, if_neg h2, if_neg h3, if_neg h4, if_pos h5]
            simp only [getStat]
            rw [alookup_modifyStat]
            by_cases ht : t = statKey tx.ticker
            · have hs : isSellFor (statKey tx.ticker) tx = true := by
                simp [isSellFor, hst, h5]
              rw [if_pos ht, alookup_ensureStat, if_pos rfl]
              simp [hb, hs, ht]
            · have hs : isSellFor t tx = false := by simp [isSellFor, hne ht]
              rw [if_neg ht, alookup_ensureStat, if_neg ht]
              simp [hb, hs]
          · have hb : ∀ u, isBuyFor u tx = false := fun u => by simp [isBuyFor, h4]
            have hs : ∀ u, isSellFor u tx = false := fun u => by simp [isSellFor, h5]
            unfold processTransaction
            rw [if_neg h1, if_neg h2, if_neg h3, if_neg h4, if_neg h5]
            simp only [getStat]
            rw [alookup_ensureStat]
            by_cases ht : t = statKey tx.ticker
            · rw [if_pos ht]
              simp [hb, hs, ht]
            · rw [if_neg ht]
              simp [hb, hs]

theorem tickerStats_none_process (s : AggState) (tx : Transaction) (t : String) :
    alookup (processTransaction s tx).tickerStats t = none ↔
      alookup s.tickerStats t = none ∧ isTouchFor t tx = false := by
  by_cases h1 : tx.ticker = some "EUR" ∧ tx.type = "BUY"
  · have htc : isTouchFor t tx = false := by simp [isTouchFor, isStatTx, h1.1, h1.2]
    unfold processTransaction
    rw [if_pos h1]
    simp [htc]
  · by_cases h2 : tx.type = "DIVIDEND"
    · have htc : isTouchFor t tx = false := by simp [isTouchFor, isStatTx, h2]
      unfold processTransaction
      rw [if_neg h1, if_pos h2]
      simp [htc]
    · by_cases h3 : tx.type = "FEE"
      · have htc : isTouchFor t tx = false := by simp [isTouchFor, isStatTx, h3]
        unfold processTransaction
        rw [if_neg h1, if_neg h2, if_pos h3]
        simp [htc]
      · have hst : isStatTx tx = true := by
          simp [isStatTx, h2, h3]
          exact not_and_or.mp h1
        have hne : ∀ (hnt : ¬ t = statKey tx.ticker), (statKey tx.ticker == t) = false := by
          intro hnt
          simp only [beq_eq_false_iff_ne, ne_eq]
          exact fun hc => hnt hc.symm
        by_cases h4 : tx.type = "BUY"
        · unfold processTransaction
          rw [if_neg h1, if_neg h2, if_neg h3, if_pos h4]
          dsimp only
          rw [alookup_modifyStat]
          by_cases ht : t = statKey tx.ticker
          · have htc : isTouchFor t tx = true := by
              rw [ht]
              simp [isTouchFor, hst]
            rw [if_pos ht, alookup_ensureStat, if_pos rfl]
            simp [htc]
          · have htc : isTouchFor t tx = false := by simp [isTouchFor, hne ht]
            rw [if_neg ht, alookup_ensureStat, if_neg ht]
            simp [htc]
        · by_cases h5 : tx.type = "SELL"
          · unfold processTransaction
            rw [if_neg h1, if_neg h2, if_neg h3, if_neg h4, if_pos h5]
            dsimp only
            rw [alookup_modifyStat]
            by_cases ht : t = statKey tx.ticker
            · have htc : isTouchFor t tx = true := by
                rw [ht]
                simp [isTouchFor, hst]
              rw [if_pos ht, alookup_ensureStat, if_pos rfl]
              simp [htc]
            · have htc : isTouchFor t tx = false := by simp [isTouchFor, hne ht]
              rw [if_neg ht, alookup_ensureStat, if_neg ht]
              simp [htc]
          · unfold processTransaction
            rw [if_neg h1, if_neg h2, if_neg h3, if_neg h4, if_neg h5]
            dsimp only
            rw [alookup_ensureStat]
            by_cases ht : t = statKey tx.ticker
            · have htc : isTouchFor t tx = true := by
                rw [ht]
                simp [isTouchFor, hst]
              rw [if_pos ht]
              simp [htc]
            · have htc : isTouchFor t tx = false := by simp [isTouchFor, hne ht]
              rw [if_neg ht]
              simp [htc]

theorem totalInjected_process (s : AggState) (tx : Transaction) :
    (processTransaction s tx).totalInjected =
      if isTopUpTx tx then jadd s.totalInjected tx.totalAmount else s.totalInjected := by
  unfold processTransaction
  by_cases h1 : tx.ticker = some "EUR" ∧ tx.type = "BUY"
  · have : isTopUpTx tx = true := by simp [isTopUpTx, h1.1, h1.2]
    rw [if_pos h1]
    simp [this]
  · have : isTopUpTx tx = false := by
      simp [isTopUpTx]
      tauto
    rw [if_neg h1]
    by_cases h2 : tx.type = "DIVIDEND"
    · rw [if_pos h2]; simp [this]
    · rw [if_neg h2]
      by_cases h3 : tx.type = "FEE"
      · rw [if_pos h3]; simp [this]
      · rw [if_neg h3]
        by_cases h4 : tx.type = "BUY"
        · rw [if_pos h4]; simp [this]
        · rw [if_neg h4]
          by_cases h5 : tx.type = "SELL"
          · rw [if_pos h5]; simp [this]
          · rw [if_neg h5]; simp [this]

theorem totalSold_process (s : AggState) (tx : Transaction) :
    (processTransaction s tx).totalSold =
      if isSellTx tx then jadd s.totalSold tx.totalAmount else s.totalSold := by
  unfold processTransaction
  by_cases h1 : tx.ticker = some "EUR" ∧ tx.type = "BUY"
  · have : isSellTx tx = false := by simp [isSellTx, h1.2]
    rw [if_pos h1]
    simp [this]
  · rw [if_neg h1]
    by_cases h2 : tx.type = "DIVIDEND"
    · have : isSellTx tx = false := by simp [isSellTx, h2]
      rw [if_pos h2]; simp [this]
    · rw [if_neg h2]
      by_cases h3 : tx.type = "FEE"
      · have : isSellTx tx = false := by simp [isSellTx, h3]
        rw [if_pos h3]; simp [this]
      · rw [if_neg h3]
        by_cases h4 : tx.type = "BUY"
        · have : isSellTx tx = false := by simp [isSellTx, h4]
          rw [if_pos h4]; simp [this]
        · rw [if_neg h4]
          by_cases h5 : tx.type = "SELL"
          · have : isSellTx tx = true := by simp [isSellTx, h5]
            rw [if_pos h5]; simp [this]
          · have : isSellTx tx = false := by simp [isSellTx, h5]
            rw [if_neg h5]; simp [this]

theorem totalDividends_process (s : AggState) (tx : Transaction) :
    (processTransaction s tx).totalDividends =
      if isDividendTx tx then jadd s.totalDividends tx.totalAmount else s.totalDividends := by
  unfold processTransaction
  by_cases h1 : tx.ticker = some "EUR" ∧ tx.type = "BUY"
  · have : isDividendTx tx = false := by simp [isDividendTx, h1.2]
    rw [if_pos h1]
    simp [this]
  · rw [if_neg h1]
    by_cases h2 : tx.type = "DIVIDEND"
    · have : isDividendTx tx = true := by simp [isDividendTx, h2]
      rw [if_pos h2]; simp [this]
    · have : isDividendTx tx = false := by simp [isDividendTx, h2]
      rw [if_neg h2]
      by_cases h3 : tx.type = "FEE"
      · rw [if_pos h3]; simp [this]
      · rw [if_neg h3]
        by_cases h4 : tx.type = "BUY"
        · rw [if_pos h4]; simp [this]
        · rw [if_neg h4]
          by_cases h5 : tx.type = "SELL"
          · rw [if_pos h5]; simp [this]
          · rw [if_neg h5]; simp [this]

theorem totalFees_process (s : AggState) (tx : Transaction) :
    (processTransaction s tx).totalFees =
      if isFeeTx tx then jadd s.totalFees (jabs tx.totalAmount) else s.totalFees := by
  unfold processTransaction
  by_cases h1 : tx.ticker = some "EUR" ∧ tx.type = "BUY"
  · have : isFeeTx tx = false := by simp [isFeeTx, h1.2]
    rw [if_pos h1]
    simp [this]
  · rw [if_neg h1]
    by_cases h2 : tx.type = "DIVIDEND"
    · have : isFeeTx tx = false := by simp [isFeeTx, h2]
      rw [if_pos h2]; simp [this]
    · rw [if_neg h2]
      by_cases h3 : tx.type = "FEE"
      · have : isFeeTx tx = true := by simp [isFeeTx, h3]
        rw [if_pos h3]; simp [this]
      · have : isFeeTx tx = false := by simp [isFeeTx, h3]
        rw [if_neg h3]
        by_cases h4 : tx.type = "BUY"
        · rw [if_pos h4]; simp [this]
        · rw [if_neg h4]
          by_cases h5 : tx.type = "SELL"
          · rw [if_pos h5]; simp [this]
          · rw [if_neg h5]; simp [this]

theorem nodup_keys_process (s : AggState) (tx : Transaction)
    (h : (s.tickerStats.map Prod.fst).Nodup) :
    ((processTransaction s tx).tickerStats.map Prod.fst).Nodup := by
  have hens : ∀ k, ((ensureStat s.tickerStats k).map Prod.fst).Nodup := by
    intro k
    rw [keys_ensureStat]
    split
    next hk =>
      rw [List.nodup_append]
      refine ⟨h, List.nodup_singleton k, ?_⟩
      intro a ha hb
      rw [List.mem_singleton] at hb
      subst hb
      exact (alookup_eq_none _ _).1 hk ha
    next hk => exact h
  unfold processTransaction
  by_cases h1 : tx.ticker = some "EUR" ∧ tx.type = "BUY"
  · rw [if_pos h1]; exact h
  · rw [if_neg h1]
    by_cases h2 : tx.type = "DIVIDEND"
    · rw [if_pos h2]; exact h
    · rw [if_neg h2]
      by_cases h3 : tx.type = "FEE"
      · rw [if_pos h3]; exact h
      · rw [if_neg h3]
        by_cases h4 : tx.type = "BUY"
        · rw [if_pos h4]
          dsimp only
          rw [keys_modifyStat]
          exact hens _
        · rw [if_neg h4]
          by_cases h5 : tx.type = "SELL"
          · rw [if_pos h5]
            dsimp only
            rw [keys_modifyStat]
            exact hens _
          · rw [if_neg h5]
            exact hens _

/-! ## Fold characterizations: the whole loop in terms of per-ticker sums -/

theorem getStat_foldl (txs : List Transaction) (s : AggState) (t : String) :
    getStat (txs.foldl processTransaction s) t =
      { boughtQuantity :=
          ((txs.filter (isBuyFor t)).map Transaction.quantity).foldl jadd
            (getStat s t).boughtQuantity,
        soldQuantity :=
          ((txs.filter (isSellFor t)).map Transaction.quantity).foldl jadd
            (getStat s t).soldQuantity,
        totalBoughtAmount :=
          ((txs.filter (isBuyFor t)).map Transaction.totalAmount).foldl jadd
            (getStat s t).totalBoughtAmount } := by
  induction txs generalizing s with
  | nil => simp
  | cons tx rest ih =>
    rw [List.foldl_cons, ih, getStat_process]
    by_cases hb : isBuyFor t tx <;> by_cases hs : isSellFor t tx <;>
      simp [List.filter_cons, hb, hs]

theorem tickerStats_none_foldl (txs : List Transaction) (s : AggState) (t : String) :
    alookup (txs.foldl processTransaction s).tickerStats t = none ↔
      alookup s.tickerStats t = none ∧ txs.filter (isTouchFor t) = [] := by
  induction txs generalizing s with
  | nil => simp
  | cons tx rest ih =>
    rw [List.foldl_cons, ih, tickerStats_none_process]
    by_cases htc : isTouchFor t tx <;> simp [List.filter_cons, htc, and_assoc]

theorem nodup_keys_foldl (txs : List Transaction) (s : AggState)
    (h : (s.tickerStats.map Prod.fst).Nodup) :
    (((txs.foldl processTransaction s).tickerStats).map Prod.fst).Nodup := by
  induction txs generalizing s with
  | nil => exact h
  | cons tx rest ih =>
    rw [List.foldl_cons]
    exact ih _ (nodup_keys_process s tx h)

theorem totalInjected_foldl (txs : List Transaction) (s : AggState) :
    (txs.foldl processTransaction s).totalInjected =
      ((txs.filter isTopUpTx).map Transaction.totalAmount).foldl jadd s.totalInjected := by
  induction txs generalizing s with
  | nil => rfl
  | cons tx rest ih =>
    rw [List.foldl_cons, ih, totalInjected_process]
    by_cases h : isTopUpTx tx <;> simp [List.filter_cons, h]

theorem totalSold_foldl (txs : List Transaction) (s : AggState) :
    (txs.foldl processTransaction s).totalSold =
      ((txs.filter isSellTx).map Transaction.totalAmount).foldl jadd s.totalSold := by
  induction txs generalizing s with
  | nil => rfl
  | cons tx rest ih =>
    rw [List.foldl_cons, ih, totalSold_process]
    by_cases h : isSellTx tx <;> simp [List.filter_cons, h]

theorem totalDividends_foldl (txs : List Transaction) (s : AggState) :
    (txs.foldl processTransaction s).totalDividends =
      ((txs.filter isDividendTx).map Transaction.totalAmount).foldl jadd s.totalDividends := by
  induction txs generalizing s with
  | nil => rfl
  | cons tx rest ih =>
    rw [List.foldl_cons, ih, totalDividends_process]
    by_cases h : isDividendTx tx <;> simp [List.filter_cons, h]

theorem totalFees_foldl (txs : List Transaction) (s : AggState) :
    (txs.foldl processTransaction s).totalFees =
      ((txs.filter isFeeTx).map fun tx => jabs tx.totalAmount).foldl jadd s.totalFees := by
  induction txs generalizing s with
  | nil => rfl
  | cons tx rest ih =>
    rw [List.foldl_cons, ih, totalFees_process]
    by_cases h : isFeeTx tx <;> simp [List.filter_cons, h]

/-! ## The emitted positions as a function of the final stats -/

/-- The position entry the finalization loop of `calculateAveragePrices`
emits for one stats entry (when the remaining quantity is positive). -/
def mkPosition (st : TickerStat) : Option Position :=
  if jlt (some 0) (jsub st.boughtQuantity st.soldQuantity) then
    some { averagePrice := jdiv st.totalBoughtAmount st.boughtQuantity,
           totalQuantity := jsub st.boughtQuantity st.soldQuantity }
  else none

theorem positions_eq_filterMap (txs : List Transaction) :
    (calculateAveragePrices txs).positions =
      (txs.foldl processTransaction initialState).tickerStats.filterMap
        fun p => (mkPosition p.2).map fun v => (p.1, v) := by
  unfold calculateAveragePrices
  dsimp only
  congr 1
  funext p
  unfold mkPosition
  by_cases h : jlt (some 0) (jsub p.2.boughtQuantity p.2.soldQuantity) <;> simp [h]

theorem keys_filterMap_sublist (l : List (String × TickerStat)) :
    ((l.filterMap fun p => (mkPosition p.2).map fun v => (p.1, v)).map Prod.fst).Sublist
      (l.map Prod.fst) := by
  induction l with
  | nil => simp
  | cons p rest ih =>
    rw [List.filterMap_cons]
    cases hm : mkPosition p.2 with
    | none => exact ih.cons p.1
    | some v => exact ih.cons₂ p.1

theorem alookup_filterMap (l : List (String × TickerStat))
    (hnd : (l.map Prod.fst).Nodup) (t : String) :
    alookup (l.filterMap fun p => (mkPosition p.2).map fun v => (p.1, v)) t =
      (alookup l t).bind mkPosition := by
  induction l with
  | nil => rfl
  | cons p rest ih =>
    rw [List.map_cons, List.nodup_cons] at hnd
    rw [List.filterMap_cons]
    by_cases h : p.1 = t
    · subst h
      cases hm : mkPosition p.2 with
      | none =>
        have hnone :
            alookup (rest.filterMap fun p => (mkPosition p.2).map fun v => (p.1, v)) p.1 =
              none := by
          rw [alookup_eq_none]
          intro hmem
          exact hnd.1 ((keys_filterMap_sublist rest).subset hmem)
        simp [hm, alookup, hnone]
      | some v =>
        simp [hm, alookup]
    · cases hm : mkPosition p.2 with
      | none => simp [hm, alookup, h, ih hnd.2]
      | some v => simp [hm, alookup, h, ih hnd.2]

/-- Master characterization: the positions the aggregation emits, looked up
by ticker, are exactly the specification-side `posSpec` per-ticker sums. -/
theorem alookup_positions (txs : List Transaction) (t : String) :
    alookup (calculateAveragePrices txs).positions t = posSpec txs t := by
  rw [positions_eq_filterMap,
    alookup_filterMap _ (nodup_keys_foldl txs initialState (by simp [initialState])) t]
  unfold posSpec
  cases h : alookup (txs.foldl processTransaction initialState).tickerStats t with
  | none =>
    obtain ⟨-, hfil⟩ := (tickerStats_none_foldl txs initialState t).1 h
    rw [if_pos hfil]
    rfl
  | some st =>
    have hfil : ¬ txs.filter (isTouchFor t) = [] := by
      intro hc
      have hnone : alookup (txs.foldl processTransaction initialState).tickerStats t = none :=
        (tickerStats_none_foldl txs initialState t).2 ⟨rfl, hc⟩
      rw [h] at hnone
      cases hnone
    rw [if_neg hfil]
    have hget : st = getStat (txs.foldl processTransaction initialState) t := by
      simp [getStat, h]
    rw [getStat_foldl] at hget
    rw [hget]
    rfl

theorem nodup_positions_keys (txs : List Transaction) :
    ((calculateAveragePrices txs).positions.map Prod.fst).Nodup := by
  rw [positions_eq_filterMap]
  exact (keys_filterMap_sublist _).nodup
    (nodup_keys_foldl txs initialState (by simp [initialState]))

theorem mem_positions_iff (txs : List Transaction) (t : String) (p : Position) :
    (t, p) ∈ (calculateAveragePrices txs).positions ↔ posSpec txs t = some p := by
  rw [mem_iff_alookup _ (nodup_positions_keys txs), alookup_positions]

theorem jle_iff (x y : JNum) :
    jle x y = true ↔ ∃ a b : ℚ, x = some a ∧ y = some b ∧ a ≤ b := by
  cases x <;> cases y <;> simp [jle]

/-- No record is ever folded into the `EUR` stats as a buy: a buy of `EUR`
is the cash-top-up branch, which skips the stats entirely. -/
theorem isBuyFor_EUR (tx : Transaction) : isBuyFor "EUR" tx = false := by
  rcases htk : tx.ticker with _ | s
  · simp [isBuyFor, statKey, htk]
  · by_cases hs : s = "EUR"
    · subst hs
      by_cases hb : tx.type = "BUY"
      · simp [isBuyFor, isStatTx, htk, hb]
      · simp [isBuyFor, hb]
    · simp [isBuyFor, statKey, htk, hs]

theorem isSellFor_EUR (tx : Transaction)
    (h : ¬(tx.ticker = some "EUR" ∧ tx.type = "SELL")) :
    isSellFor "EUR" tx = false := by
  by_cases hs : tx.type = "SELL"
  · have hE : ¬ tx.ticker = some "EUR" := fun hc => h ⟨hc, hs⟩
    rcases htk : tx.ticker with _ | s
    · simp [isSellFor, statKey, htk]
    · have hsE : ¬ s = "EUR" := by
        intro hc
        subst hc
        exact hE htk
      simp [isSellFor, statKey, htk, hsE]
  · simp [isSellFor, hs]

/-- `posSpec` only depends on the multiset of records. -/
theorem posSpec_perm {txs₁ txs₂ : List Transaction} (h : txs₁.Perm txs₂) (t : String) :
    posSpec txs₁ t = posSpec txs₂ t := by
  have hsum : ∀ (p : Transaction → Bool) (f : Transaction → JNum),
      jsum ((txs₁.filter p).map f) = jsum ((txs₂.filter p).map f) := by
    intro p f
    exact foldl_jadd_perm ((h.filter p).map f) _
  have hbq : boughtQuantityOf txs₁ t = boughtQuantityOf txs₂ t := hsum _ _
  have hsq : soldQuantityOf txs₁ t = soldQuantityOf txs₂ t := hsum _ _
  have hba : totalBoughtAmountOf txs₁ t = totalBoughtAmountOf txs₂ t := hsum _ _
  unfold posSpec
  rw [hbq, hsq, hba]
  have hp := h.filter (isTouchFor t)
  by_cases hfil : txs₁.filter (isTouchFor t) = []
  · have hfil₂ : txs₂.filter (isTouchFor t) = [] := ((hfil ▸ hp).symm).eq_nil
    rw [if_pos hfil, if_pos hfil₂]
  · have hfil₂ : ¬ txs₂.filter (isTouchFor t) = [] := fun hc => hfil ((hc ▸ hp).eq_nil)
    rw [if_neg hfil, if_neg hfil₂]

/-! ## The claims -/

unseal Rat.add Rat.mul Rat.inv Rat.sub in
/-- C1: for the record sequence [Buy TICK_A qty 10 price 5 total 50,
Sell TICK_A qty 4 total 24, Dividend TICK_A total 1, CashTopUp total 100],
`calculateAveragePrices` returns positions containing exactly `TICK_A` with
remaining quantity 6 and average price 5, and totals `totalInjected = 100`,
`totalSold = 24`, `totalDividends = 1`, `totalFees = 0`. -/
theorem claim1_scenario_aggregation :
    calculateAveragePrices
      [{ ticker := some "TICK_A", type := "BUY", quantity := some 10,
         pricePerShare := some 5, totalAmount := some 50 },
       { ticker := some "TICK_A", type := "SELL", quantity := some 4,
         pricePerShare := some 6, totalAmount := some 24 },
       { ticker := some "TICK_A", type := "DIVIDEND", quantity := none,
         pricePerShare := none, totalAmount := some 1 },
       cashTopUpTx (some 100)] =
    { positions := [("TICK_A", { averagePrice := some 5, totalQuantity := some 6 })],
      totalInjected := some 100, totalSold := some 24,
      totalDividends := some 1, totalFees := some 0 } := by
  decide

/-- C2: every emitted position's average price is the cumulative bought
amount divided by the cumulative bought quantity — both sums over the
ticker's buy records only — and its remaining quantity is cumulative bought
minus cumulative sold quantity; sell records appear in neither sum of the
average price, so they never change it. -/
theorem claim2_average_price_from_cumulative_buys (txs : List Transaction) (t : String)
    (p : Position) (h : (t, p) ∈ (calculateAveragePrices txs).positions) :
    p.averagePrice = jdiv (totalBoughtAmountOf txs t) (boughtQuantityOf txs t) ∧
    p.totalQuantity = jsub (boughtQuantityOf txs t) (soldQuantityOf txs t) := by
  rw [mem_positions_iff] at h
  unfold posSpec at h
  by_cases hfil : txs.filter (isTouchFor t) = []
  · rw [if_pos hfil] at h
    cases h
  · rw [if_neg hfil] at h
    by_cases hlt : jlt (some 0) (jsub (boughtQuantityOf txs t) (soldQuantityOf txs t)) = true
    · rw [if_pos hlt, Option.some_inj] at h
      subst h
      exact ⟨rfl, rfl⟩
    · rw [if_neg hlt] at h
      cases h

unseal Rat.add Rat.mul Rat.inv Rat.sub in
theorem claim2_witness :
    (Position.mk (some 5) (some 2)).averagePrice =
      jdiv (totalBoughtAmountOf [⟨some "T", "BUY", some 2, some 5, some 10⟩] "T")
        (boughtQuantityOf [⟨some "T", "BUY", some 2, some 5, some 10⟩] "T") ∧
    (Position.mk (some 5) (some 2)).totalQuantity =
      jsub (boughtQuantityOf [⟨some "T", "BUY", some 2, some 5, some 10⟩] "T")
        (soldQuantityOf [⟨some "T", "BUY", some 2, some 5, some 10⟩] "T") :=
  claim2_average_price_from_cumulative_buys
    [⟨some "T", "BUY", some 2, some 5, some 10⟩] "T" (Position.mk (some 5) (some 2))
    (by decide)

unseal Rat.add Rat.mul Rat.inv Rat.sub in
/-- C3 counterexample: a Sell with no prior Buy does not raise any error —
the aggregation returns a perfectly normal result in which the ticker is
simply absent from `positions` (and its amount still accrues to
`totalSold`); the claimed `MalformedInputError` surfacing does not happen
(no such error exists anywhere in the program). -/
theorem claim3_counterexample :
    calculateAveragePrices
      [{ ticker := some "TICK_B", type := "SELL", quantity := some 4,
         pricePerShare := none, totalAmount := some 24 }] =
    { positions := [], totalInjected := some 0, totalSold := some 24,
      totalDividends := some 0, totalFees := some 0 } := by
  decide

/-- C3 (amended): a ticker with no buy records whose sell records all have
non-negative finite quantities produces no entry in `positions` (remaining
quantity is non-positive, so the `> 0` filter drops it); no error is raised
and no non-finite average price is emitted for it. -/
theorem claim3_sell_without_buy_omitted (txs : List Transaction) (t : String)
    (hnobuy : txs.filter (isBuyFor t) = [])
    (hsell : ∀ tx ∈ txs, isSellFor t tx = true → jle (some 0) tx.quantity = true) :
    alookup (calculateAveragePrices txs).positions t = none := by
  rw [alookup_positions]
  unfold posSpec
  by_cases hfil : txs.filter (isTouchFor t) = []
  · rw [if_pos hfil]
  · rw [if_neg hfil]
    have hbq0 : boughtQuantityOf txs t = some 0 := by
      unfold boughtQuantityOf
      rw [hnobuy]
      rfl
    have hsq : jle (some 0) (soldQuantityOf txs t) = true := by
      unfold soldQuantityOf jsum
      apply jle_zero_foldl _ _ (by decide)
      intro x hx
      rw [List.mem_map] at hx
      obtain ⟨tx, htx, rfl⟩ := hx
      rw [List.mem_filter] at htx
      exact hsell tx htx.1 htx.2
    obtain ⟨z, b, hz, hb, hb0⟩ := (jle_iff _ _).1 hsq
    have hz0 : z = 0 := by
      rw [Option.some_inj] at hz
      exact hz.symm
    subst hz0
    rw [hbq0, hb]
    have hlt : ¬ (jlt (some (0 : ℚ)) (jsub (some (0 : ℚ)) (some b)) = true) := by
      simp [jsub, jlt]
      linarith
    rw [if_neg hlt]

theorem claim3_witness :
    alookup (calculateAveragePrices
      [{ ticker := some "S", type := "SELL", quantity := some 3,
         pricePerShare := none, totalAmount := some 9 }]).positions "S" = none :=
  claim3_sell_without_buy_omitted
    [⟨some "S", "SELL", some 3, none, some 9⟩] "S" (by decide) (by decide)

unseal Rat.add Rat.mul Rat.inv Rat.sub in
/-- C4 counterexample: a BUY row whose `Quantity` and `Price per share`
cells are non-numeric does not abort the run — `parseCSV` succeeds, the
record is emitted with `NaN` (non-finite) fields and is then aggregated
without any error: the ticker silently vanishes from `positions` (its
`NaN`-poisoned remaining quantity fails the `> 0` check) and no
`RecordParseError` exists anywhere. -/
theorem claim4_counterexample :
    parseCSV "Type,Ticker,Quantity,Price per share,Total Amount\nBUY,TICK,abc,xyz,50" =
      Except.ok [{ ticker := some "TICK", type := "BUY", quantity := none,
                   pricePerShare := none, totalAmount := some 50 }] ∧
    calculateAveragePrices
      [{ ticker := some "TICK", type := "BUY", quantity := none,
         pricePerShare := none, totalAmount := some 50 }] =
    { positions := [], totalInjected := some 0, totalSold := some 0,
      totalDividends := some 0, totalFees := some 0 } := by
  constructor
  · decide
  · decide

/-- C4 (amended): the record extractor aborts a line if and only if the line
is kept as a BUY/SELL transaction (truthy ticker and a `BUY`/`SELL`
substring in its type) while its `Price per share` column is absent — the
`TypeError` of calling `.replace` on `undefined`.  A present-but-unparsable
numeric field never aborts: `parseFloat` merely yields `NaN`, which flows
into aggregation. -/
theorem claim4_parse_abort_iff_missing_price_column (header : List String) (line : String) :
    (∃ msg, parseLine header line = Except.error msg) ↔
      truthy (rowGet header (rowValues line) "Ticker") = true ∧
      (hasSubstr (rowType header (rowValues line)).data "BUY".data = true ∨
       hasSubstr (rowType header (rowValues line)).data "SELL".data = true) ∧
      rowGet header (rowValues line) "Price per share" = none := by
  unfold parseLine
  by_cases hc : truthy (rowGet header (rowValues line) "Ticker") = true ∧
      (hasSubstr (rowType header (rowValues line)).data "BUY".data = true ∨
       hasSubstr (rowType header (rowValues line)).data "SELL".data = true)
  · rw [if_pos hc]
    cases hpps : rowGet header (rowValues line) "Price per share" with
    | none => simp [hc.1, hc.2]
    | some pps => simp [hpps]
  · rw [if_neg hc]
    constructor
    · rintro ⟨msg, hmsg⟩
      exact Except.noConfusion hmsg
    · rintro ⟨h1, h2, -⟩
      exact absurd ⟨h1, h2⟩ hc

theorem claim4_witness :
    ∃ msg, parseLine ["Type", "Ticker"] "BUY,T" = Except.error msg :=
  (claim4_parse_abort_iff_missing_price_column ["Type", "Ticker"] "BUY,T").mpr
    ⟨by decide, by decide, by decide⟩

/-- C5: a row whose `Type` is exactly `CASH TOP-UP` makes the extractor
synthesize exactly one record — ticker the `EUR` settlement-currency
pseudo-asset, kind `BUY`, quantity equal to the row's total amount,
price-per-unit 1 — and folding that record changes nothing of the state but
`totalInjected`, to which its total amount is added: no ticker stats (hence
no position) and no other total is touched. -/
theorem claim5_cash_top_up (header : List String) (line : String) (s : AggState)
    (h : rowType header (rowValues line) = "CASH TOP-UP") :
    parseLine header line =
      Except.ok [cashTopUpTx (rowTotalAmount header (rowValues line))] ∧
    processTransaction s (cashTopUpTx (rowTotalAmount header (rowValues line))) =
      { s with totalInjected :=
          (jadd s.totalInjected (rowTotalAmount header (rowValues line))) } := by
  constructor
  · have hcond : ¬(truthy (rowGet header (rowValues line) "Ticker") = true ∧
        (hasSubstr (rowType header (rowValues line)).data "BUY".data = true ∨
         hasSubstr (rowType header (rowValues line)).data "SELL".data = true)) := by
      rintro ⟨-, hor⟩
      rw [h] at hor
      revert hor
      decide
    unfold parseLine
    rw [if_neg hcond]
    unfold laterPushes
    rw [h]
    simp
  · unfold processTransaction cashTopUpTx
    rw [if_pos ⟨rfl, rfl⟩]

theorem claim5_witness :
    parseLine ["Type", "Total Amount"] "CASH TOP-UP,100" =
      Except.ok [cashTopUpTx
        (rowTotalAmount ["Type", "Total Amount"] (rowValues "CASH TOP-UP,100"))] ∧
    processTransaction initialState
      (cashTopUpTx (rowTotalAmount ["Type", "Total Amount"] (rowValues "CASH TOP-UP,100"))) =
    { initialState with totalInjected :=
        (jadd initialState.totalInjected
          (rowTotalAmount ["Type", "Total Amount"] (rowValues "CASH TOP-UP,100"))) } :=
  claim5_cash_top_up ["Type", "Total Amount"] "CASH TOP-UP,100" initialState (by decide)

/-- C6: every ticker in the output positions has a strictly positive
remaining quantity (the `currentQuantity > 0` filter), and a ticker whose
cumulative sold quantity equals or exceeds its cumulative bought quantity is
omitted from positions entirely. -/
theorem claim6_positions_strictly_positive (txs : List Transaction) :
    (∀ t p, (t, p) ∈ (calculateAveragePrices txs).positions →
      jlt (some 0) p.totalQuantity = true) ∧
    (∀ t, jle (boughtQuantityOf txs t) (soldQuantityOf txs t) = true →
      alookup (calculateAveragePrices txs).positions t = none) := by
  constructor
  · intro t p h
    rw [mem_positions_iff] at h
    unfold posSpec at h
    by_cases hfil : txs.filter (isTouchFor t) = []
    · rw [if_pos hfil] at h
      cases h
    · rw [if_neg hfil] at h
      by_cases hlt : jlt (some 0) (jsub (boughtQuantityOf txs t) (soldQuantityOf txs t)) = true
      · rw [if_pos hlt, Option.some_inj] at h
        subst h
        exact hlt
      · rw [if_neg hlt] at h
        cases h
  · intro t hle
    obtain ⟨a, b, ha, hb, hab⟩ := (jle_iff _ _).1 hle
    rw [alookup_positions]
    unfold posSpec
    by_cases hfil : txs.filter (isTouchFor t) = []
    · rw [if_pos hfil]
    · rw [if_neg hfil]
      have hlt : ¬ (jlt (some 0) (jsub (boughtQuantityOf txs t) (soldQuantityOf txs t)) = true) := by
        rw [ha, hb]
        simp [jsub, jlt]
        linarith
      rw [if_neg hlt]

unseal Rat.add Rat.mul Rat.inv Rat.sub in
theorem claim6_witness :
    jlt (some 0) (Position.mk (some 2) (some 5)).totalQuantity = true ∧
    alookup (calculateAveragePrices
      [⟨some "A", "BUY", some 5, some 2, some 10⟩,
       ⟨some "B", "BUY", some 1, some 1, some 1⟩,
       ⟨some "B", "SELL", some 2, none, some 3⟩]).positions "B" = none :=
  ⟨(claim6_positions_strictly_positive
      [⟨some "A", "BUY", some 5, some 2, some 10⟩,
       ⟨some "B", "BUY", some 1, some 1, some 1⟩,
       ⟨some "B", "SELL", some 2, none, some 3⟩]).1 "A" (Position.mk (some 2) (some 5))
      (by decide),
   (claim6_positions_strictly_positive
      [⟨some "A", "BUY", some 5, some 2, some 10⟩,
       ⟨some "B", "BUY", some 1, some 1, some 1⟩,
       ⟨some "B", "SELL", some 2, none, some 3⟩]).2 "B" (by decide)⟩

unseal Rat.add Rat.mul Rat.inv Rat.sub in
set_option maxRecDepth 8000 in
/-- C7 counterexample: in the binary64 arithmetic the program actually
computes in, the aggregation is not permutation-invariant.  For the ticker
`T`, three buys with the double quantities nearest 0.1, 0.2, 0.3 and three
sells of quantity 0 with those amounts: summed in that order the remaining
quantity and `totalSold` are `0.6000000000000001`
(`5404319552844596 * 2 ^ (-53)`), in the reverse order they are `0.6`
(`5404319552844595 * 2 ^ (-53)`), because `0.3 + 0.2` is exact (`0.5`)
while `0.1 + 0.2` rounds up. -/
theorem claim7_counterexample :
    List.Perm
      [(⟨some "T", "BUY", some (roundDouble (1 / 10)), some 1, some 1⟩ : Transaction),
       ⟨some "T", "BUY", some (roundDouble (2 / 10)), some 1, some 1⟩,
       ⟨some "T", "BUY", some (roundDouble (3 / 10)), some 1, some 1⟩,
       ⟨some "T", "SELL", some 0, none, some (roundDouble (1 / 10))⟩,
       ⟨some "T", "SELL", some 0, none, some (roundDouble (2 / 10))⟩,
       ⟨some "T", "SELL", some 0, none, some (roundDouble (3 / 10))⟩]
      [(⟨some "T", "SELL", some 0, none, some (roundDouble (3 / 10))⟩ : Transaction),
       ⟨some "T", "SELL", some 0, none, some (roundDouble (2 / 10))⟩,
       ⟨some "T", "SELL", some 0, none, some (roundDouble (1 / 10))⟩,
       ⟨some "T", "BUY", some (roundDouble (3 / 10)), some 1, some 1⟩,
       ⟨some "T", "BUY", some (roundDouble (2 / 10)), some 1, some 1⟩,
       ⟨some "T", "BUY", some (roundDouble (1 / 10)), some 1, some 1⟩] ∧
    alookup (calculateAveragePricesF
      [⟨some "T", "BUY", some (roundDouble (1 / 10)), some 1, some 1⟩,
       ⟨some "T", "BUY", some (roundDouble (2 / 10)), some 1, some 1⟩,
       ⟨some "T", "BUY", some (roundDouble (3 / 10)), some 1, some 1⟩,
       ⟨some "T", "SELL", some 0, none, some (roundDouble (1 / 10))⟩,
       ⟨some "T", "SELL", some 0, none, some (roundDouble (2 / 10))⟩,
       ⟨some "T", "SELL", some 0, none, some (roundDouble (3 / 10))⟩]).positions "T" ≠
    alookup (calculateAveragePricesF
      [⟨some "T", "SELL", some 0, none, some (roundDouble (3 / 10))⟩,
       ⟨some "T", "SELL", some 0, none, some (roundDouble (2 / 10))⟩,
       ⟨some "T", "SELL", some 0, none, some (roundDouble (1 / 10))⟩,
       ⟨some "T", "BUY", some (roundDouble (3 / 10)), some 1, some 1⟩,
       ⟨some "T", "BUY", some (roundDouble (2 / 10)), some 1, some 1⟩,
       ⟨some "T", "BUY", some (roundDouble (1 / 10)), some 1, some 1⟩]).positions "T" ∧
    (calculateAveragePricesF
      [⟨some "T", "BUY", some (roundDouble (1 / 10)), some 1, some 1⟩,
       ⟨some "T", "BUY", some (roundDouble (2 / 10)), some 1, some 1⟩,
       ⟨some "T", "BUY", some (roundDouble (3 / 10)), some 1, some 1⟩,
       ⟨some "T", "SELL", some 0, none, some (roundDouble (1 / 10))⟩,
       ⟨some "T", "SELL", some 0, none, some (roundDouble (2 / 10))⟩,
       ⟨some "T", "SELL", some 0, none, some (roundDouble (3 / 10))⟩]).totalSold ≠
    (calculateAveragePricesF
      [⟨some "T", "SELL", some 0, none, some (roundDouble (3 / 10))⟩,
       ⟨some "T", "SELL", some 0, none, some (roundDouble (2 / 10))⟩,
       ⟨some "T", "SELL", some 0, none, some (roundDouble (1 / 10))⟩,
       ⟨some "T", "BUY", some (roundDouble (3 / 10)), some 1, some 1⟩,
       ⟨some "T", "BUY", some (roundDouble (2 / 10)), some 1, some 1⟩,
       ⟨some "T", "BUY", some (roundDouble (1 / 10)), some 1, some 1⟩]).totalSold := by
  decide

/-- C7 (amended): permutation invariance of the aggregation holds for the
exact idealization of the arithmetic — the accumulations are then genuinely
commutative, so positions as a ticker-indexed mapping (looked up
extensionally; insertion order is the documented cosmetic exception) and all
four cash-flow totals are equal under any reordering.  Over the binary64
arithmetic the program actually runs on, reordering can change the rounded
sums in the low-order bits (see the counterexample), so bit-exact invariance
fails there. -/
theorem claim7_permutation_invariance (txs₁ txs₂ : List Transaction) (h : txs₁.Perm txs₂) :
    (∀ t, alookup (calculateAveragePrices txs₁).positions t =
      alookup (calculateAveragePrices txs₂).positions t) ∧
    (calculateAveragePrices txs₁).totalInjected = (calculateAveragePrices txs₂).totalInjected ∧
    (calculateAveragePrices txs₁).totalSold = (calculateAveragePrices txs₂).totalSold ∧
    (calculateAveragePrices txs₁).totalDividends = (calculateAveragePrices txs₂).totalDividends ∧
    (calculateAveragePrices txs₁).totalFees = (calculateAveragePrices txs₂).totalFees := by
  refine ⟨fun t => ?_, ?_, ?_, ?_, ?_⟩
  · rw [alookup_positions, alookup_positions]
    exact posSpec_perm h t
  · have e₁ : (calculateAveragePrices txs₁).totalInjected =
        (txs₁.foldl processTransaction initialState).totalInjected := rfl
    have e₂ : (calculateAveragePrices txs₂).totalInjected =
        (txs₂.foldl processTransaction initialState).totalInjected := rfl
    rw [e₁, e₂, totalInjected_foldl, totalInjected_foldl]
    exact foldl_jadd_perm ((h.filter isTopUpTx).map Transaction.totalAmount) _
  · have e₁ : (calculateAveragePrices txs₁).totalSold =
        (txs₁.foldl processTransaction initialState).totalSold := rfl
    have e₂ : (calculateAveragePrices txs₂).totalSold =
        (txs₂.foldl processTransaction initialState).totalSold := rfl
    rw [e₁, e₂, totalSold_foldl, totalSold_foldl]
    exact foldl_jadd_perm ((h.filter isSellTx).map Transaction.totalAmount) _
  · have e₁ : (calculateAveragePrices txs₁).totalDividends =
        (txs₁.foldl processTransaction initialState).totalDividends := rfl
    have e₂ : (calculateAveragePrices txs₂).totalDividends =
        (txs₂.foldl processTransaction initialState).totalDividends := rfl
    rw [e₁, e₂, totalDividends_foldl, totalDividends_foldl]
    exact foldl_jadd_perm ((h.filter isDividendTx).map Transaction.totalAmount) _
  · have e₁ : (calculateAveragePrices txs₁).totalFees =
        (txs₁.foldl processTransaction initialState).totalFees := rfl
    have e₂ : (calculateAveragePrices txs₂).totalFees =
        (txs₂.foldl processTransaction initialState).totalFees := rfl
    rw [e₁, e₂, totalFees_foldl, totalFees_foldl]
    exact foldl_jadd_perm ((h.filter isFeeTx).map fun tx => jabs tx.totalAmount) _

unseal Rat.add Rat.mul Rat.inv Rat.sub in
theorem claim7_witness :
    alookup (calculateAveragePrices
      [⟨some "A", "BUY", some 2, some 3, some 6⟩,
       ⟨some "A", "SELL", some 1, none, some 4⟩]).positions "A" =
    alookup (calculateAveragePrices
      [⟨some "A", "SELL", some 1, none, some 4⟩,
       ⟨some "A", "BUY", some 2, some 3, some 6⟩]).positions "A" ∧
    (calculateAveragePrices
      [⟨some "A", "BUY", some 2, some 3, some 6⟩,
       ⟨some "A", "SELL", some 1, none, some 4⟩]).totalSold =
    (calculateAveragePrices
      [⟨some "A", "SELL", some 1, none, some 4⟩,
       ⟨some "A", "BUY", some 2, some 3, some 6⟩]).totalSold :=
  ⟨(claim7_permutation_invariance _ _
      (List.Perm.swap (⟨some "A", "SELL", some 1, none, some 4⟩ : Transaction)
        ⟨some "A", "BUY", some 2, some 3, some 6⟩ [])).1 "A",
   ((claim7_permutation_invariance _ _
      (List.Perm.swap (⟨some "A", "SELL", some 1, none, some 4⟩ : Transaction)
        ⟨some "A", "BUY", some 2, some 3, some 6⟩ [])).2).2.1⟩

/-- C8: when one or more tickers of the computed positions have no entry in
the identifier map, `main` takes the missing-mapping exit: it reports the
complete list of missing tickers (every position ticker without an entry is
in the reported list, not just the first), exits with status 1, and the
report is not printed. -/
theorem claim8_missing_mapping_exit (r : AggResult) (m : List (String × String))
    (h : ∃ t ∈ r.positions.map Prod.fst, alookup m t = none) :
    reportOrExit r m = MainOutcome.exitWithMissing 1 (missingTickers r.positions m) ∧
    ∀ t ∈ r.positions.map Prod.fst, alookup m t = none →
      t ∈ missingTickers r.positions m := by
  have hmem : ∀ t ∈ r.positions.map Prod.fst, alookup m t = none →
      t ∈ missingTickers r.positions m := by
    intro t ht hnone
    unfold missingTickers
    rw [List.mem_filter]
    refine ⟨ht, ?_⟩
    rw [hnone]
    rfl
  obtain ⟨t0, ht0, hn0⟩ := h
  have hne : missingTickers r.positions m ≠ [] := by
    intro hc
    have hin := hmem t0 ht0 hn0
    rw [hc] at hin
    cases hin
  refine ⟨?_, hmem⟩
  unfold reportOrExit
  rw [if_pos hne]

theorem claim8_witness :
    reportOrExit (AggResult.mk [("ABC", Position.mk (some 5) (some 6))]
        (some 0) (some 0) (some 0) (some 0)) [] =
      MainOutcome.exitWithMissing 1
        (missingTickers [("ABC", Position.mk (some 5) (some 6))] []) ∧
    "ABC" ∈ missingTickers [("ABC", Position.mk (some 5) (some 6))] [] :=
  ⟨(claim8_missing_mapping_exit (AggResult.mk [("ABC", Position.mk (some 5) (some 6))]
      (some 0) (some 0) (some 0) (some 0)) [] ⟨"ABC", by decide, rfl⟩).1,
   (claim8_missing_mapping_exit (AggResult.mk [("ABC", Position.mk (some 5) (some 6))]
      (some 0) (some 0) (some 0) (some 0)) [] ⟨"ABC", by decide, rfl⟩).2
     "ABC" (by decide) rfl⟩

unseal Rat.add Rat.mul Rat.inv Rat.sub in
/-- C9 counterexample: a `CASH TOP-UP` row with a negative total amount (as
parsed straight from CSV text) makes `totalInjected` negative, refuting the
claim that the four scalar totals are non-negative for every input. -/
theorem claim9_counterexample :
    parseCSV "Type,Total Amount\nCASH TOP-UP,-50" =
      Except.ok [cashTopUpTx (some (-50))] ∧
    jle (some 0) (calculateAveragePrices [cashTopUpTx (some (-50))]).totalInjected = false := by
  constructor
  · decide
  · decide

/-- C9 (amended): `totalFees` accumulates `abs(totalAmount)` of every fee
record and is therefore non-negative whenever every record's total amount is
finite, regardless of its sign; the other three totals are plain signed
sums, non-negative provided every record's total amount is additionally
non-negative. -/
theorem claim9_totals_nonneg (txs : List Transaction)
    (hfin : ∀ tx ∈ txs, tx.totalAmount.isSome = true) :
    jle (some 0) (calculateAveragePrices txs).totalFees = true ∧
    ((∀ tx ∈ txs, jle (some 0) tx.totalAmount = true) →
      jle (some 0) (calculateAveragePrices txs).totalInjected = true ∧
      jle (some 0) (calculateAveragePrices txs).totalSold = true ∧
      jle (some 0) (calculateAveragePrices txs).totalDividends = true) := by
  constructor
  · have e : (calculateAveragePrices txs).totalFees =
        (txs.foldl processTransaction initialState).totalFees := rfl
    rw [e, totalFees_foldl]
    apply jle_zero_foldl _ _ (by decide)
    intro x hx
    rw [List.mem_map] at hx
    obtain ⟨tx, htx, rfl⟩ := hx
    rw [List.mem_filter] at htx
    have hs := hfin tx htx.1
    rcases ha : tx.totalAmount with _ | a
    · rw [ha] at hs
      cases hs
    · exact (jle_zero_iff _).2 ⟨|a|, rfl, abs_nonneg a⟩
  · intro hnn
    have hmem : ∀ (p : Transaction → Bool) (x : JNum),
        x ∈ (txs.filter p).map Transaction.totalAmount → jle (some 0) x = true := by
      intro p x hx
      rw [List.mem_map] at hx
      obtain ⟨tx, htx, rfl⟩ := hx
      rw [List.mem_filter] at htx
      exact hnn tx htx.1
    refine ⟨?_, ?_, ?_⟩
    · have e : (calculateAveragePrices txs).totalInjected =
          (txs.foldl processTransaction initialState).totalInjected := rfl
      rw [e, totalInjected_foldl]
      exact jle_zero_foldl _ _ (by decide) (hmem isTopUpTx)
    · have e : (calculateAveragePrices txs).totalSold =
          (txs.foldl processTransaction initialState).totalSold := rfl
      rw [e, totalSold_foldl]
      exact jle_zero_foldl _ _ (by decide) (hmem isSellTx)
    · have e : (calculateAveragePrices txs).totalDividends =
          (txs.foldl processTransaction initialState).totalDividends := rfl
      rw [e, totalDividends_foldl]
      exact jle_zero_foldl _ _ (by decide) (hmem isDividendTx)

unseal Rat.add Rat.mul Rat.inv Rat.sub in
theorem claim9_witness :
    jle (some 0) (calculateAveragePrices
      [⟨some "EUR", "BUY", some 50, some 1, some 50⟩,
       ⟨some "T", "SELL", some 1, none, some 5⟩,
       ⟨none, "FEE", none, none, some 2⟩]).totalFees = true ∧
    jle (some 0) (calculateAveragePrices
      [⟨some "EUR", "BUY", some 50, some 1, some 50⟩,
       ⟨some "T", "SELL", some 1, none, some 5⟩,
       ⟨none, "FEE", none, none, some 2⟩]).totalInjected = true :=
  ⟨(claim9_totals_nonneg
      [⟨some "EUR", "BUY", some 50, some 1, some 50⟩,
       ⟨some "T", "SELL", some 1, none, some 5⟩,
       ⟨none, "FEE", none, none, some 2⟩] (by decide)).1,
   ((claim9_totals_nonneg
      [⟨some "EUR", "BUY", some 50, some 1, some 50⟩,
       ⟨some "T", "SELL", some 1, none, some 5⟩,
       ⟨none, "FEE", none, none, some 2⟩] (by decide)).2 (by decide)).1⟩

unseal Rat.add Rat.mul Rat.inv Rat.sub in
/-- C10 counterexample: a position keyed `"EUR"` can in fact be produced —
by a SELL row with ticker `EUR` and negative quantity (remaining quantity
`0 - (-5) = 5 > 0`, average price `0/0 = NaN`) — refuting the final
"can never produce a position" part of the claim. -/
theorem claim10_counterexample :
    (calculateAveragePrices
      [{ ticker := some "EUR", type := "SELL", quantity := some (-5),
         pricePerShare := none, totalAmount := some 10 }]).positions =
    [("EUR", Position.mk none (some 5))] := by
  decide

/-- C10 (amended): every Buy record with ticker `"EUR"` — synthesized from a
`CASH TOP-UP` row or parsed from a genuine BUY row — is folded into
`totalInjected` only and touches no ticker stats; consequently `"EUR"`
appears in `positions` only when the input has a Sell record with ticker
`"EUR"` (as in the counterexample): in the absence of such sells no `EUR`
position can exist, Buy records alone can never produce one. -/
theorem claim10_eur_buys_fold_to_injected (txs : List Transaction) (s : AggState)
    (hnosell : ∀ tx ∈ txs, ¬(tx.ticker = some "EUR" ∧ tx.type = "SELL")) :
    (∀ tx : Transaction, tx.ticker = some "EUR" → tx.type = "BUY" →
      processTransaction s tx =
        { s with totalInjected := (jadd s.totalInjected tx.totalAmount) }) ∧
    alookup (calculateAveragePrices txs).positions "EUR" = none := by
  constructor
  · intro tx hE hB
    unfold processTransaction
    rw [if_pos ⟨hE, hB⟩]
  · rw [alookup_positions]
    unfold posSpec
    by_cases hfil : txs.filter (isTouchFor "EUR") = []
    · rw [if_pos hfil]
    · rw [if_neg hfil]
      have hbq : txs.filter (isBuyFor "EUR") = [] := by
        rw [List.filter_eq_nil_iff]
        intro tx _
        rw [isBuyFor_EUR tx]
        exact Bool.false_ne_true
      have hsq : txs.filter (isSellFor "EUR") = [] := by
        rw [List.filter_eq_nil_iff]
        intro tx htx
        rw [isSellFor_EUR tx (hnosell tx htx)]
        exact Bool.false_ne_true
      have hbq0 : boughtQuantityOf txs "EUR" = some 0 := by
        unfold boughtQuantityOf
        rw [hbq]
        rfl
      have hsq0 : soldQuantityOf txs "EUR" = some 0 := by
        unfold soldQuantityOf
        rw [hsq]
        rfl
      rw [hbq0, hsq0]
      have hlt : ¬ (jlt (some 0) (jsub (some (0 : ℚ)) (some (0 : ℚ))) = true) := by
        simp [jsub, jlt]
      rw [if_neg hlt]

theorem claim10_witness :
    processTransaction initialState
      (Transaction.mk (some "EUR") "BUY" (some 100) (some 1) (some 100)) =
      { initialState with totalInjected :=
          (jadd initialState.totalInjected (some 100)) } ∧
    alookup (calculateAveragePrices
      [Transaction.mk (some "EUR") "BUY" (some 100) (some 1) (some 100)]).positions
      "EUR" = none :=
  ⟨(claim10_eur_buys_fold_to_injected
      [Transaction.mk (some "EUR") "BUY" (some 100) (some 1) (some 100)]
      initialState (by decide)).1
      (Transaction.mk (some "EUR") "BUY" (some 100) (some 1) (some 100)) rfl rfl,
   (claim10_eur_buys_fold_to_injected
      [Transaction.mk (some "EUR") "BUY" (some 100) (some 1) (some 100)]
      initialState (by decide)).2⟩

end FinaryRevolut
